import Mathlib

/-!
Verification of the multi-period inventory replenishment model
(`inventory.ipynb`): a shallow embedding of the decision variables,
the three constraint families, the objective, and the post-solve
result extraction, together with theorems settling the spec claims.

Decision variables are integers (the notebook declares `BoolVar` and
non-negative `IntVar`s); cost coefficients are exact rationals, with
the Python literal `0.01` embedded as the rational `1/100`.
-/

namespace Inventory

/-- An assignment of the four per-period decision-variable families of the
notebook: `x i` (order indicator), `intake i` (order quantity), `inv i`
(ending inventory), `lost i` (lost sales), all 0-indexed as in the source. -/
structure Sol where
  x : ℕ → ℤ
  intake : ℕ → ℤ
  inv : ℕ → ℤ
  lost : ℕ → ℤ

/-! ### Problem data (the notebook's data cell) -/

/-- `stock_level = 4  # As of end of D+0` -/
def stock_level : ℤ := 4

/-- `selling_price = 10  # SGD` -/
def selling_price : ℚ := 10

/-- `number_of_days = 10` -/
def number_of_days : ℕ := 10

/-- `demand = [3, 5, 3, 5, 3, 5, 3, 5, 3, 5]` -/
def demandList : List ℤ := [3, 5, 3, 5, 3, 5, 3, 5, 3, 5]

/-- Demand indexed as a function, `demand[i]` of the source. -/
def demand (i : ℕ) : ℤ := demandList.getD i 0

/-- `inventory_holding_cost = selling_price * 0.01` -/
def inventory_holding_cost : ℚ := selling_price * 0.01

/-- `lost_sales_cost = selling_price` -/
def lost_sales_cost : ℚ := selling_price

/-- `moq = 10  # Minimum order quantity` -/
def moq : ℤ := 10

/-- `delivery_cost = 1  # Fixed delivery cost` -/
def delivery_cost : ℚ := 1

/-! ### Variable domains and the three constraint families -/

/-- The variable domains declared in the variables cell: `x[i]` a `BoolVar`,
`intake[i]`, `inv[i]`, `lost[i]` non-negative `IntVar`s, for `i` in
`range(number_of_days)`. -/
def domainOk (n : ℕ) (s : Sol) : Prop :=
  ∀ i < n, (s.x i = 0 ∨ s.x i = 1) ∧ 0 ≤ s.intake i ∧ 0 ≤ s.inv i ∧ 0 ≤ s.lost i

/-- Constraint (1) of the source: `intake[i] <= 1000000 * x[i]`. -/
def constraint1 (n : ℕ) (s : Sol) : Prop :=
  ∀ i < n, s.intake i ≤ 1000000 * s.x i

/-- Constraint (2) of the source: `intake[i] >= moq * x[i]`. -/
def constraint2 (n : ℕ) (m : ℤ) (s : Sol) : Prop :=
  ∀ i < n, m * s.x i ≤ s.intake i

/-- The previous ending level used by constraint (3): `stock_level` for
`i == 0` and `inv[i-1]` otherwise. -/
def prevInv (stock : ℤ) (s : Sol) (i : ℕ) : ℤ :=
  if i = 0 then stock else s.inv (i - 1)

/-- Constraint (3) of the source, inventory dynamics:
`stock_level + intake[0] - demand[0] + lost[0] == inv[0]` and
`inv[i-1] + intake[i] - demand[i] + lost[i] == inv[i]` for `i > 0`. -/
def constraint3 (n : ℕ) (stock : ℤ) (d : ℕ → ℤ) (s : Sol) : Prop :=
  ∀ i < n, prevInv stock s i + s.intake i - d i + s.lost i = s.inv i

/-- Full feasibility of an assignment for the generated model: all declared
domains and the three per-period constraint families. -/
def feasible (n : ℕ) (stock m : ℤ) (d : ℕ → ℤ) (s : Sol) : Prop :=
  domainOk n s ∧ constraint1 n s ∧ constraint2 n m s ∧ constraint3 n stock d s

instance (n : ℕ) (s : Sol) : Decidable (domainOk n s) := by
  unfold domainOk; infer_instance

instance (n : ℕ) (s : Sol) : Decidable (constraint1 n s) := by
  unfold constraint1; infer_instance

instance (n : ℕ) (m : ℤ) (s : Sol) : Decidable (constraint2 n m s) := by
  unfold constraint2; infer_instance

instance (n : ℕ) (stock : ℤ) (d : ℕ → ℤ) (s : Sol) : Decidable (constraint3 n stock d s) := by
  unfold constraint3; infer_instance

instance (n : ℕ) (stock m : ℤ) (d : ℕ → ℤ) (s : Sol) :
    Decidable (feasible n stock m d s) := by
  unfold feasible
  infer_instance

/-! ### Objective -/

/-- The objective expression with explicit coefficients `c` (delivery cost),
`h` (holding cost per unit) and `p` (lost-sales cost per unit): the summand
per period mirrors
`(delivery_cost * x[i]) + (inventory_holding_cost * inv[i]) + (selling_price * lost[i])`. -/
def cost (n : ℕ) (c h p : ℚ) (s : Sol) : ℚ :=
  ∑ i ∈ Finset.range n, (c * s.x i + h * s.inv i + p * s.lost i)

/-- The minimized expression of the notebook's `solver.Minimize` cell, with
the notebook's own coefficients. -/
def objective (n : ℕ) (s : Sol) : ℚ :=
  ∑ i ∈ Finset.range n,
    (delivery_cost * s.x i + inventory_holding_cost * s.inv i + selling_price * s.lost i)

/-! ### Spec-side derived constants (§6 of the spec), for comparison -/

/-- Spec wording: `holding_cost_rate = selling_price · 0.01`. -/
def holding_cost_rate : ℚ := selling_price * 0.01

/-- Spec wording: `lost_sales_unit_cost = selling_price`. -/
def lost_sales_unit_cost : ℚ := selling_price

/-! ### 1-indexed ending-level view used by the balance-invariant claim -/

/-- `endingLevel stock s t` is the spec's `ending_level[t]` for `t = 0..N`:
`ending_level[0]` is the starting stock and `ending_level[t]` for `t ≥ 1`
is the solved `inv[t-1]` of the 0-indexed source. -/
def endingLevel (stock : ℤ) (s : Sol) : ℕ → ℤ
  | 0 => stock
  | t + 1 => s.inv t

/-! ### Result extraction (the post-solve cell) -/

/-- Total intake as the source computes it: the loop accumulates
`intake[i].solution_value()` only under `if x[i].solution_value() == 1`. -/
def total_intake_qty (n : ℕ) (s : Sol) : ℤ :=
  ∑ i ∈ Finset.range n, if s.x i = 1 then s.intake i else 0

/-- Total inventory as the source computes it: the accumulation
`total_inventory += inv[i].solution_value()` sits inside the same
`if x[i].solution_value() == 1` block. -/
def total_inventory (n : ℕ) (s : Sol) : ℤ :=
  ∑ i ∈ Finset.range n, if s.x i = 1 then s.inv i else 0

/-- Total lost sales as the source computes it, likewise filtered by
`x[i].solution_value() == 1`. -/
def total_lost_sales_qty (n : ℕ) (s : Sol) : ℤ :=
  ∑ i ∈ Finset.range n, if s.x i = 1 then s.lost i else 0

/-- Python's `int()` applied to a solver-returned value (modelled as an exact
rational): truncation toward zero, as in `int(intake[i].solution_value())`. -/
def pyInt (q : ℚ) : ℤ :=
  if 0 ≤ q then ⌊q⌋ else ⌈q⌉

/-- The per-period and aggregate figures the post-solve cell reads. -/
structure Extraction where
  intakeVals : List ℤ
  invVals : List ℤ
  lostVals : List ℤ
  totalIntake : ℤ
  totalInv : ℤ
  totalLost : ℤ
deriving DecidableEq

/-- The post-solve cell of the source: after `status = solver.Solve()` the
status is printed but never branched on, and every variable value is read
and every total derived unconditionally. The `status` argument (the numeric
code the notebook prints: 0=optimal, 1=feasible, 2=infeasible, 3=unbounded,
4=abnormal, 6=not solved) is therefore unused by the extraction. -/
def extractResults (_status : ℕ) (n : ℕ) (s : Sol) : Option Extraction :=
  some
    { intakeVals := (List.range n).map s.intake
      invVals := (List.range n).map s.inv
      lostVals := (List.range n).map s.lost
      totalIntake := total_intake_qty n s
      totalInv := total_inventory n s
      totalLost := total_lost_sales_qty n s }

/-! ### The model-building cell, as executed: no validation -/

/-- The error taxonomy the spec's §7 prescribes for the builder. -/
inductive InputError where
  | nonPositivePeriodCount : InputError
  | negativeDemand : InputError
  | negativeMoq : InputError
  | negativeDeliveryCost : InputError
deriving DecidableEq

/-- The variables cell of the source: `for i in range(number_of_days)` it
registers the quadruple of variable names `x_i, ord_i, inv_i, lost_i`.
Python's `range` of a non-positive count is empty, so a non-positive period
count registers nothing; no check is performed. -/
def declareVariables (n : ℤ) : List (String × String × String × String) :=
  (List.range n.toNat).map fun i =>
    ("x_" ++ toString i, "ord_" ++ toString i, "inv_" ++ toString i, "lost_" ++ toString i)

/-- The builder as the source executes it: given the period count, the
demand list and the supplier terms it registers the variables and performs
no validation whatsoever, so it never produces an `InputError`. -/
def buildModel (n : ℤ) (_dem : List ℤ) (_m : ℤ) (_c : ℚ) :
    Except InputError (List (String × String × String × String)) :=
  Except.ok (declareVariables n)

/-! ### The notebook's recorded solved run -/

/-- The solver output recorded in the notebook:
intake `[0,12,0,0,11,0,0,13,0,0]`, inv `[1,8,5,0,8,3,0,8,5,0]`, lost all 0,
with orders (x = 1) on days 2, 5 and 8. -/
def notebookSol : Sol where
  x i := [0, 1, 0, 0, 1, 0, 0, 1, 0, 0].getD i 0
  intake i := [0, 12, 0, 0, 11, 0, 0, 13, 0, 0].getD i 0
  inv i := [1, 8, 5, 0, 8, 3, 0, 8, 5, 0].getD i 0
  lost _ := 0

/-- The all-zero assignment, the baseline optimum of the one-period
degenerate horizon when demand equals the starting stock. -/
def zeroSol : Sol where
  x _ := 0
  intake _ := 0
  inv _ := 0
  lost _ := 0

/-- Feasibility instantiated at the notebook's data. -/
def feasible10 (s : Sol) : Prop :=
  feasible number_of_days stock_level moq demand s

instance (s : Sol) : Decidable (feasible10 s) := by
  unfold feasible10
  infer_instance

/-- The notebook's objective at its data, `objective` over the 10 days. -/
def cost10 (s : Sol) : ℚ :=
  objective number_of_days s

end Inventory

namespace Inventory

/-! ### Theorems -/

/-- **C1** (Inventory-balance recurrence). For every period `t` in `1..N`,
every assignment satisfying the generated constraints satisfies
`ending_level[t-1] + quantity[t] - demand[t] + lost[t] = ending_level[t]`
exactly in integer arithmetic, with `ending_level[0]` the given starting
stock; for `t = 1` this reads
`starting_stock + quantity[1] - demand[1] + lost[1] = ending_level[1]`.
Here `quantity[t]`, `demand[t]`, `lost[t]` of the 1-indexed spec are the
source's 0-indexed `intake[t-1]`, `demand[t-1]`, `lost[t-1]`. -/
theorem balance_recurrence (n : ℕ) (stock m : ℤ) (d : ℕ → ℤ) (s : Sol)
    (hf : feasible n stock m d s) (t : ℕ) (h1 : 1 ≤ t) (hn : t ≤ n) :
    endingLevel stock s (t - 1) + s.intake (t - 1) - d (t - 1) + s.lost (t - 1)
      = endingLevel stock s t := by
  obtain ⟨-, -, -, h3⟩ := hf
  obtain ⟨t, rfl⟩ : ∃ u, t = u + 1 := ⟨t - 1, (Nat.succ_pred_eq_of_pos h1).symm⟩
  have hc := h3 t (by omega)
  rcases t with - | u
  · simpa [prevInv, endingLevel] using hc
  · simpa [prevInv, endingLevel] using hc

/-- Witness for C1: the recorded notebook solution is feasible and satisfies
the balance recurrence at `t = 1`. -/
theorem balance_recurrence_witness :
    endingLevel stock_level notebookSol 0 + notebookSol.intake 0 - demand 0
      + notebookSol.lost 0 = endingLevel stock_level notebookSol 1 :=
  balance_recurrence number_of_days stock_level moq demand notebookSol
    (by decide) 1 (by decide) (by decide)

/-- **C2** (Indicator linkage, big-M disjunctive domain). For every period
`t` of a feasible assignment (so `x[t] ∈ {0,1}`, `intake[t] ≥ 0`,
`intake[t] ≤ 1000000 · x[t]` and `intake[t] ≥ moq · x[t]`):
`x[t] = 0` forces `intake[t] = 0`, `x[t] = 1` forces `intake[t] ≥ moq`,
conversely `intake[t] > 0` forces `x[t] = 1`, and `intake[t]` lies in
`{0} ∪ [moq, 1000000]`. -/
theorem indicator_linkage (n : ℕ) (stock m : ℤ) (d : ℕ → ℤ) (s : Sol)
    (hf : feasible n stock m d s) (t : ℕ) (ht : t < n) :
    (s.x t = 0 → s.intake t = 0) ∧
    (s.x t = 1 → m ≤ s.intake t) ∧
    (0 < s.intake t → s.x t = 1) ∧
    (s.intake t = 0 ∨ (m ≤ s.intake t ∧ s.intake t ≤ 1000000)) := by
  obtain ⟨hd, h1, h2, -⟩ := hf
  obtain ⟨hx, hq, -, -⟩ := hd t ht
  have hub := h1 t ht
  have hlb := h2 t ht
  rcases hx with hx0 | hx1
  · refine ⟨fun _ => ?_, fun hx1 => by rw [hx1] at hx0; omega, fun hpos => ?_, ?_⟩
    · omega
    · rw [hx0] at hub; omega
    · left; rw [hx0] at hub; omega
  · refine ⟨fun hx0 => by rw [hx0] at hx1; omega, fun _ => ?_, fun _ => hx1, ?_⟩
    · rw [hx1] at hlb; omega
    · right; rw [hx1] at hub hlb; omega

/-- Witness for C2: the linkage instantiated on the recorded notebook
solution at period 2 (0-indexed 1), the first period with an order. -/
theorem indicator_linkage_witness :
    (notebookSol.x 1 = 0 → notebookSol.intake 1 = 0) ∧
    (notebookSol.x 1 = 1 → moq ≤ notebookSol.intake 1) ∧
    (0 < notebookSol.intake 1 → notebookSol.x 1 = 1) ∧
    (notebookSol.intake 1 = 0 ∨ (moq ≤ notebookSol.intake 1 ∧ notebookSol.intake 1 ≤ 1000000)) :=
  indicator_linkage number_of_days stock_level moq demand notebookSol
    (by decide) 1 (by decide)

/-- **C7** (Objective composition). The minimized expression equals the sum
over periods of
`delivery_cost · indicator[t] + holding_cost_rate · ending_level[t] + lost_sales_unit_cost · lost[t]`,
with the derived constants satisfying
`holding_cost_rate = selling_price · 0.01` and
`lost_sales_unit_cost = selling_price`, each computed once in the data cell
(the summand references the constants, it does not recompute them). -/
theorem objective_composition (n : ℕ) (s : Sol) :
    objective n s =
      (∑ i ∈ Finset.range n,
        (delivery_cost * s.x i + holding_cost_rate * s.inv i
          + lost_sales_unit_cost * s.lost i)) ∧
    holding_cost_rate = selling_price * 0.01 ∧
    lost_sales_unit_cost = selling_price :=
  ⟨rfl, rfl, rfl⟩

/-- **C10** (Filtered intake total is lossless). For every assignment with
binary indicators and non-negative quantities satisfying constraint (1)
`intake[t] ≤ 1000000 · x[t]`, the source's filtered accumulation of intake
over periods with `x[t] = 1` equals the plain sum of `intake[t]` over all
periods, because `x[t] = 0` forces `intake[t] = 0`. -/
theorem filtered_intake_total (n : ℕ) (s : Sol)
    (hx : ∀ i < n, s.x i = 0 ∨ s.x i = 1)
    (hq : ∀ i < n, 0 ≤ s.intake i)
    (h1 : constraint1 n s) :
    total_intake_qty n s = ∑ i ∈ Finset.range n, s.intake i := by
  unfold total_intake_qty
  refine Finset.sum_congr rfl fun i hi => ?_
  rw [Finset.mem_range] at hi
  rcases hx i hi with hx0 | hx1
  · have hub := h1 i hi
    rw [hx0] at hub
    have := hq i hi
    simp [hx0]
    omega
  · simp [hx1]

/-- Witness for C10: the filtered and plain intake totals agree on the
recorded notebook solution. -/
theorem filtered_intake_total_witness :
    total_intake_qty number_of_days notebookSol
      = ∑ i ∈ Finset.range number_of_days, notebookSol.intake i :=
  filtered_intake_total number_of_days notebookSol
    (fun i hi => (by decide : domainOk number_of_days notebookSol) i hi |>.1)
    (fun i hi => ((by decide : domainOk number_of_days notebookSol) i hi).2.1)
    (by decide)

/-- **C3** (code bug, evaluated at the notebook's own recorded run). The
recorded solution is feasible for the generated model, yet the reported
total ending inventory — accumulated only under
`if x[i].solution_value() == 1` in the source — is 24, while the sum of
`ending_level[t]` over all ten periods is 38, so the reported total does
not equal the sum over all periods that the claim (and the printed label
`total inventory quantity`) describes. -/
theorem totals_filtered_by_indicator :
    feasible10 notebookSol ∧
    total_inventory number_of_days notebookSol = 24 ∧
    (∑ i ∈ Finset.range number_of_days, notebookSol.inv i) = 38 ∧
    total_inventory number_of_days notebookSol
      ≠ ∑ i ∈ Finset.range number_of_days, notebookSol.inv i :=
  ⟨by decide, by decide, by decide, by decide⟩

/-- Counterexample to **C4**: Python's `int()` truncates toward zero, so a
solved value of `5.999999999` is extracted as 5, not 6 as the claim
requires. -/
theorem defensive_rounding_counterexample :
    pyInt 5.999999999 = 5 ∧ pyInt 5.999999999 ≠ 6 := by
  have h : pyInt 5.999999999 = 5 := by
    unfold pyInt
    rw [if_pos (by norm_num), Int.floor_eq_iff]
    norm_num
  exact ⟨h, by rw [h]; decide⟩

/-- **C4** amended: when the extractor reads an integer-typed variable whose
solver-returned value carries non-negative rounding noise `n + ε` with
`0 ≤ ε < 1`, `int()` truncates toward zero and reads `n` (the floor), not
the nearest integer; in particular `5.999999999` reads as 5. -/
theorem defensive_truncation (n : ℤ) (e : ℚ) (hn : 0 ≤ n) (h0 : 0 ≤ e) (h1 : e < 1) :
    pyInt ((n : ℚ) + e) = n := by
  have hnn : (0 : ℚ) ≤ (n : ℚ) + e := add_nonneg (by exact_mod_cast hn) h0
  unfold pyInt
  rw [if_pos hnn, Int.floor_int_add, Int.floor_eq_zero_iff.mpr ⟨h0, h1⟩, add_zero]

/-- Witness for the amended C4: `5 + 0.999999999` (i.e. `5.999999999`)
extracts as 5. -/
theorem defensive_truncation_witness :
    pyInt ((5 : ℤ) + (0.999999999 : ℚ)) = 5 :=
  defensive_truncation 5 0.999999999 (by norm_num) (by norm_num) (by norm_num)

/-- Counterexample to **C5**: at status 2 (INFEASIBLE, neither OPTIMAL = 0
nor FEASIBLE = 1) the post-solve cell still reads every variable value and
derives the totals — an extraction is produced, where the claim says none
may be. -/
theorem extraction_ungated_counterexample :
    (2 : ℕ) ≠ 0 ∧ (2 : ℕ) ≠ 1 ∧
    extractResults 2 number_of_days notebookSol ≠ none :=
  ⟨by decide, by decide, by simp [extractResults]⟩

/-- **C5** amended: the post-solve cell never branches on the solver status;
it prints it and then reads variable values and derives per-period results
and totals unconditionally, producing the same extraction for every status
code. -/
theorem extraction_ungated (st n : ℕ) (s : Sol) :
    extractResults st n s = extractResults 0 n s ∧
    (extractResults st n s).isSome = true :=
  ⟨rfl, rfl⟩

/-- Counterexample to **C6**: for period count 0 (non-positive) the builder
does not raise an `InputError` — `range(0)` is empty and the build succeeds
with no variables registered; likewise negative demand, MOQ and delivery
cost are accepted unchecked. -/
theorem build_no_validation_counterexample :
    buildModel 0 [] 10 1 = Except.ok [] ∧
    buildModel 3 [-1, 2, 5] (-2) (-7) = Except.ok (declareVariables 3) :=
  ⟨rfl, rfl⟩

/-- Each per-period cost term is non-negative whenever the coefficients are
non-negative and the variables respect their declared domains. -/
lemma cost_term_nonneg (c h p : ℚ) (hc : 0 ≤ c) (hh : 0 ≤ h) (hp : 0 ≤ p)
    (s : Sol) (i : ℕ) (hx : s.x i = 0 ∨ s.x i = 1) (hv : 0 ≤ s.inv i) (hl : 0 ≤ s.lost i) :
    (0 : ℚ) ≤ c * s.x i + h * s.inv i + p * s.lost i := by
  have hx' : (0 : ℚ) ≤ (s.x i : ℚ) := by rcases hx with h | h <;> simp [h]
  have hv' : (0 : ℚ) ≤ (s.inv i : ℚ) := by exact_mod_cast hv
  have hl' : (0 : ℚ) ≤ (s.lost i : ℚ) := by exact_mod_cast hl
  have t1 := mul_nonneg hc hx'
  have t2 := mul_nonneg hh hv'
  have t3 := mul_nonneg hp hl'
  linarith

/-- The whole objective is non-negative under non-negative coefficients and
the declared variable domains. -/
lemma cost_nonneg (n : ℕ) (c h p : ℚ) (hc : 0 ≤ c) (hh : 0 ≤ h) (hp : 0 ≤ p)
    (s : Sol) (hdom : domainOk n s) : (0 : ℚ) ≤ cost n c h p s := by
  refine Finset.sum_nonneg fun i hi => ?_
  rw [Finset.mem_range] at hi
  obtain ⟨hx, -, hv, hl⟩ := hdom i hi
  exact cost_term_nonneg c h p hc hh hp s i hx hv hl

/-- The lost-sales term of any single period is a lower bound on the whole
objective, under non-negative coefficients and the declared domains. -/
lemma lost_term_le_cost (n : ℕ) (c h p : ℚ) (hc : 0 ≤ c) (hh : 0 ≤ h) (hp : 0 ≤ p)
    (s : Sol) (hdom : domainOk n s) (t : ℕ) (ht : t < n) :
    p * (s.lost t : ℚ) ≤ cost n c h p s := by
  have hterm : ∀ i ∈ Finset.range n,
      (0 : ℚ) ≤ c * s.x i + h * s.inv i + p * s.lost i := by
    intro i hi
    rw [Finset.mem_range] at hi
    obtain ⟨hx, -, hv, hl⟩ := hdom i hi
    exact cost_term_nonneg c h p hc hh hp s i hx hv hl
  have hsingle := Finset.single_le_sum hterm (Finset.mem_range.mpr ht)
  obtain ⟨hx, -, hv, hl⟩ := hdom t ht
  have hx' : (0 : ℚ) ≤ (s.x t : ℚ) := by rcases hx with h | h <;> simp [h]
  have hv' : (0 : ℚ) ≤ (s.inv t : ℚ) := by exact_mod_cast hv
  have t1 := mul_nonneg hc hx'
  have t2 := mul_nonneg hh hv'
  calc p * (s.lost t : ℚ)
      ≤ c * s.x t + h * s.inv t + p * s.lost t := by linarith
    _ ≤ cost n c h p s := hsingle

/-- **C6** amended: the builder performs no input validation at all — for
every period count, demand list, MOQ and delivery cost (including
non-positive counts and negative terms) it succeeds, registering one
variable quadruple per period of `range(N)` (none when `N ≤ 0`), and no
`InputError` is ever produced. -/
theorem build_no_validation (n : ℤ) (dem : List ℤ) (m : ℤ) (c : ℚ) :
    buildModel n dem m c = Except.ok (declareVariables n) ∧
    (declareVariables n).length = n.toNat :=
  ⟨rfl, by simp [declareVariables]⟩

/-- **C8** (Degenerate horizon). For `N = 1` with `demand[1] ≤ starting_stock`,
positive delivery cost `c` and positive selling price `p` (hence positive
holding rate `p · 0.01` and positive lost-sales unit cost `p`), every
optimal solution of the constructed one-period model orders nothing, loses
nothing, and ends at `starting_stock − demand[1]`. -/
theorem degenerate_horizon (stock m d : ℤ) (c p : ℚ) (s : Sol)
    (hc : 0 < c) (hp : 0 < p) (hds : d ≤ stock)
    (hf : feasible 1 stock m (fun _ => d) s)
    (hopt : ∀ s', feasible 1 stock m (fun _ => d) s' →
      cost 1 c (p * 0.01) p s ≤ cost 1 c (p * 0.01) p s') :
    s.intake 0 = 0 ∧ s.lost 0 = 0 ∧ s.inv 0 = stock - d := by
  obtain ⟨hdom, h1, h2, h3⟩ := hf
  obtain ⟨hx, hq, hv, hl⟩ := hdom 0 one_pos
  have hbal : stock + s.intake 0 - d + s.lost 0 = s.inv 0 := by
    have h := h3 0 one_pos
    simpa [prevInv] using h
  have hbase : feasible 1 stock m (fun _ => d)
      ⟨fun _ => 0, fun _ => 0, fun _ => stock - d, fun _ => 0⟩ := by
    refine ⟨fun i hi => ?_, fun i hi => ?_, fun i hi => ?_, fun i hi => ?_⟩
    · refine ⟨Or.inl rfl, le_refl 0, ?_, le_refl 0⟩
      show (0 : ℤ) ≤ stock - d
      omega
    · show (0 : ℤ) ≤ 1000000 * 0
      norm_num
    · show m * 0 ≤ (0 : ℤ)
      simp
    · have hi0 : i = 0 := by omega
      subst hi0
      show prevInv stock _ 0 + 0 - d + 0 = stock - d
      simp [prevInv]
  have hle := hopt _ hbase
  simp only [cost, Finset.sum_range_one] at hle
  push_cast at hle
  have hbalQ : (stock : ℚ) + (s.intake 0 : ℚ) - (d : ℚ) + (s.lost 0 : ℚ)
      = (s.inv 0 : ℚ) := by exact_mod_cast hbal
  have hqQ : (0 : ℚ) ≤ (s.intake 0 : ℚ) := by exact_mod_cast hq
  have hlQ : (0 : ℚ) ≤ (s.lost 0 : ℚ) := by exact_mod_cast hl
  rcases hx with hx0 | hx1
  · have hub := h1 0 one_pos
    rw [hx0] at hub
    have hq0 : s.intake 0 = 0 := by omega
    have hxQ : (s.x 0 : ℚ) = 0 := by exact_mod_cast hx0
    have hqQ0 : (s.intake 0 : ℚ) = 0 := by exact_mod_cast hq0
    have hVQ : (s.inv 0 : ℚ) = (stock : ℚ) - d + s.lost 0 := by
      rw [hqQ0] at hbalQ
      linarith
    rw [hxQ, hVQ] at hle
    have hlost0 : s.lost 0 = 0 := by
      by_contra hne
      have hLpos : (0 : ℚ) < (s.lost 0 : ℚ) := by
        have : 1 ≤ s.lost 0 := by omega
        have h1Q : (1 : ℚ) ≤ (s.lost 0 : ℚ) := by exact_mod_cast this
        linarith
      nlinarith [mul_pos hp hLpos]
    refine ⟨hq0, hlost0, by omega⟩
  · exfalso
    have hxQ : (s.x 0 : ℚ) = 1 := by exact_mod_cast hx1
    rw [hxQ] at hle
    have hVge : (stock : ℚ) - d ≤ (s.inv 0 : ℚ) := by linarith
    have hmul := mul_le_mul_of_nonneg_left hVge
      (mul_nonneg hp.le (by norm_num : (0 : ℚ) ≤ 0.01))
    have hpl := mul_nonneg hp.le hlQ
    linarith

/-- Witness for C8: starting stock 4, demand 4, MOQ 10, delivery cost 1,
selling price 10; the all-zero assignment has cost 0, hence is optimal, and
indeed orders nothing, loses nothing and ends at `4 − 4`. -/
theorem degenerate_horizon_witness :
    zeroSol.intake 0 = 0 ∧ zeroSol.lost 0 = 0 ∧ zeroSol.inv 0 = 4 - 4 :=
  degenerate_horizon 4 10 4 1 10 zeroSol (by norm_num) (by norm_num) (by norm_num)
    (by decide)
    (fun s' hf' => by
      have h0 : cost 1 1 ((10 : ℚ) * 0.01) 10 zeroSol = 0 := by
        simp [cost, zeroSol, Finset.sum_range_one]
      rw [h0]
      exact cost_nonneg 1 1 ((10 : ℚ) * 0.01) 10 (by norm_num) (by norm_num)
        (by norm_num) s' hf'.1)

/-- **C9** (Forced order scenario). For the notebook instance (starting
stock 4, demand `[3,5,3,5,3,5,3,5,3,5]`, MOQ 10, delivery cost 1, selling
price 10): the model is feasible, witnessed by the recorded solver output
(matching the recorded status 0 = OPTIMAL); every feasible solution whose
cost does not exceed the recorded solution's — in particular every optimal
solution — has zero lost sales in all ten periods; and every feasible
solution (hence every optimal one) has each non-zero order quantity at
least 10. -/
theorem forced_order_scenario :
    feasible10 notebookSol ∧
    (∀ s, feasible10 s → cost10 s ≤ cost10 notebookSol →
      ∀ t < number_of_days, s.lost t = 0) ∧
    (∀ s, feasible10 s → (∀ s', feasible10 s' → cost10 s ≤ cost10 s') →
      ∀ t < number_of_days, s.lost t = 0) ∧
    (∀ s, feasible10 s → ∀ t < number_of_days, s.intake t ≠ 0 → 10 ≤ s.intake t) := by
  have hA : feasible10 notebookSol := by decide
  have hsplit : cost10 notebookSol =
      delivery_cost * (∑ i ∈ Finset.range number_of_days, (notebookSol.x i : ℚ))
      + inventory_holding_cost * (∑ i ∈ Finset.range number_of_days, (notebookSol.inv i : ℚ))
      + selling_price * (∑ i ∈ Finset.range number_of_days, (notebookSol.lost i : ℚ)) := by
    simp [cost10, objective, Finset.sum_add_distrib, Finset.mul_sum]
  have hxsum : (∑ i ∈ Finset.range number_of_days, (notebookSol.x i : ℚ)) = 3 := by
    rw [← Int.cast_sum,
      show (∑ i ∈ Finset.range number_of_days, notebookSol.x i) = 3 from by decide]
    norm_num
  have hinvsum : (∑ i ∈ Finset.range number_of_days, (notebookSol.inv i : ℚ)) = 38 := by
    rw [← Int.cast_sum,
      show (∑ i ∈ Finset.range number_of_days, notebookSol.inv i) = 38 from by decide]
    norm_num
  have hlostsum : (∑ i ∈ Finset.range number_of_days, (notebookSol.lost i : ℚ)) = 0 := by
    rw [← Int.cast_sum,
      show (∑ i ∈ Finset.range number_of_days, notebookSol.lost i) = 0 from by decide]
    norm_num
  have hcostN : cost10 notebookSol = 34 / 5 := by
    rw [hsplit, hxsum, hinvsum, hlostsum]
    norm_num [delivery_cost, inventory_holding_cost, selling_price]
  have hB : ∀ s, feasible10 s → cost10 s ≤ cost10 notebookSol →
      ∀ t < number_of_days, s.lost t = 0 := by
    intro s hf hle t ht
    have hdom : domainOk number_of_days s := hf.1
    have hterm := lost_term_le_cost number_of_days delivery_cost inventory_holding_cost
      selling_price (by norm_num [delivery_cost])
      (by norm_num [inventory_holding_cost, selling_price])
      (by norm_num [selling_price]) s hdom t ht
    have hcost_eq : cost number_of_days delivery_cost inventory_holding_cost
        selling_price s = cost10 s := rfl
    rw [hcost_eq] at hterm
    by_contra hne
    have hl := (hdom t ht).2.2.2
    have h1l : (1 : ℚ) ≤ (s.lost t : ℚ) := by
      have : 1 ≤ s.lost t := by omega
      exact_mod_cast this
    rw [show selling_price = 10 from rfl] at hterm
    rw [hcostN] at hle
    linarith
  have hC : ∀ s, feasible10 s → (∀ s', feasible10 s' → cost10 s ≤ cost10 s') →
      ∀ t < number_of_days, s.lost t = 0 :=
    fun s hf hopt => hB s hf (hopt notebookSol hA)
  have hD : ∀ s, feasible10 s → ∀ t < number_of_days, s.intake t ≠ 0 →
      10 ≤ s.intake t := by
    intro s hf t ht hne
    obtain ⟨hdom, h1, h2, -⟩ := hf
    obtain ⟨hx, hq, -, -⟩ := hdom t ht
    have hub := h1 t ht
    have hlb := h2 t ht
    rcases hx with hx0 | hx1
    · rw [hx0] at hub
      omega
    · rw [hx1, show moq = 10 from rfl] at hlb
      omega
  exact ⟨hA, hB, hC, hD⟩

/-- Witness for C9: the recorded solution itself is feasible, is (being at
its own cost) covered by the zero-lost-sales conclusion at period 1, and
its period-2 order of 12 is at least the MOQ. -/
theorem forced_order_scenario_witness :
    feasible10 notebookSol ∧ notebookSol.lost 0 = 0 ∧ 10 ≤ notebookSol.intake 1 := by
  obtain ⟨hA, hB, -, hD⟩ := forced_order_scenario
  exact ⟨hA, hB notebookSol hA le_rfl 0 (by decide),
    hD notebookSol hA 1 (by decide) (by decide)⟩

end Inventory
